import Mathlib

/-!
Verification development for the AR488 / Artag488 GPIB interface firmware.

The definitions below are shallow embeddings of the firmware sources: the
32u4 pin-layout adapter, the `GPIBbus` engine (`AR488_GPIBbus.cpp`), the
serial-line interpreter and the device-role attention service (main
module), and, where noted, the legacy `AR488.ino` implementation kept in
the same repository.  Machine bytes are modelled as `Nat` with explicit
8-bit masking where the C code relies on `uint8_t` truncation.  Bus
handshakes that wait on the other party are modelled by outcome oracles: a
write handshake either completes or times out, a read handshake either
yields a byte (together with the sampled state of the EOI line) or times
out.
-/

/-! ## Multiline command bytes

Values from the `#define` table in `AR488.ino` (lines 140-165); the
refactored engine's `GC_`-named copies live in `AR488_GPIBbus.h` and are
used with these same values throughout `AR488_GPIBbus.cpp` (for example
`attnRequired` matches `0x3F`/`0x5F` literally). -/

def GC_GTL : Nat := 0x01
def GC_SDC : Nat := 0x04
def GC_GET : Nat := 0x08
def GC_LLO : Nat := 0x11
def GC_DCL : Nat := 0x14
def GC_SPE : Nat := 0x18
def GC_SPD : Nat := 0x19
def GC_LAD : Nat := 0x20
def GC_TAD : Nat := 0x40
def GC_UNL : Nat := 0x3F
def GC_UNT : Nat := 0x5F

/-- Control character `ESC` (0x1B), as defined in the main module. -/
def ESC : Nat := 0x1B

/-- Control character `CR` (0x0D). -/
def CR : Nat := 0xD

/-- Control character `LF` (0x0A). -/
def LF : Nat := 0xA

/-- Control character `PLUS` (0x2B, the + character). -/
def PLUS : Nat := 0x2B

/-- Argument `NO_EOI` passed for the `isLastByte` parameter of
`GPIBbus::writeByte` when EOI must not accompany the byte. -/
def NO_EOI : Bool := false

/-! ## Pin I/O adapter, AR488_MEGA32U4_MICRO layout

On this board the eight GPIB data lines live in PORTB bits 1-6 (mask
`0b01111110`, DIO2..DIO7) and PORTD bits 0 and 7 (mask `0b10000001`, DIO1
and DIO8).  The two port registers are modelled as natural numbers;
loopback means the input registers PINB/PIND read back the driven
PORTB/PORTD values. -/

/-- Model of `setGpibDbus` (32u4 layout): drive the data bus with byte
`db`.  The C code inverts the byte (`db = ~db`, negative logic) and merges
it into the two port registers under the data-line masks.  Returns the
pair (PORTB, PORTD) after the write. -/
def setGpibDbus (portB portD db : Nat) : Nat × Nat :=
  let inv := db ^^^ 255
  ((portB &&& 0b10000001) ||| (inv &&& 0b01111110),
   (portD &&& 0b01111110) ||| (inv &&& 0b10000001))

/-- Model of `readGpibDbus` (32u4 layout): sample the data pins and return
the logical byte, `~((PIND & 0b10000001) | (PINB & 0b01111110))` as a
`uint8_t`. -/
def readGpibDbus (pinB pinD : Nat) : Nat :=
  ((pinD &&& 0b10000001) ||| (pinB &&& 0b01111110)) ^^^ 255

/-- Merging `y` under a mask disjoint from `m1` and reading back under that
mask recovers exactly `y`'s bits there. -/
theorem mask_extract (m1 m2 : Nat) (hm : m1 &&& m2 = 0) (x y : Nat) :
    (((x &&& m1) ||| (y &&& m2)) &&& m2) = y &&& m2 := by
  apply Nat.eq_of_testBit_eq
  intro i
  have hd : (Nat.testBit m1 i && Nat.testBit m2 i) = false := by
    rw [← Nat.testBit_and, hm]
    simp
  simp only [Nat.testBit_and, Nat.testBit_or]
  cases h1 : Nat.testBit m1 i <;> cases h2 : Nat.testBit m2 i <;> simp_all

/-- The two data-line masks together cover the full byte. -/
theorem and_or_combine (x : Nat) : (x &&& 129) ||| (x &&& 126) = x &&& 255 := by
  rw [← Nat.and_or_distrib_left]
  rfl

/-- Masking a byte-sized value with 0xFF is the identity. -/
theorem and_255 (x : Nat) (h : x < 256) : x &&& 255 = x := by
  have h255 : (255 : Nat) = 2 ^ 8 - 1 := by norm_num
  have h8 : x < 2 ^ 8 := by norm_num at h ⊢; omega
  rw [h255, Nat.and_pow_two_sub_one_of_lt_two_pow h8]

/-- Complementing a byte-sized value stays byte-sized. -/
theorem xor_255_lt (b : Nat) (h : b < 256) : b ^^^ 255 < 256 := by
  have h1 : b < 2 ^ 8 := by omega
  have h2 : (255 : Nat) < 2 ^ 8 := by norm_num
  have := Nat.xor_lt_two_pow h1 h2
  omega

/-! ## Bus engine data model -/

/-- Bus-role states of the engine (`setControls` targets). -/
inductive BusState
  | CINI | CIDS | CCMS | CTAS | CLAS
  | DINI | DIDS | DLAS | DTAS
deriving DecidableEq, Repr

/-- Configuration record: the subset of `GPIBbus::cfg` that the modelled
operations consult. -/
structure Cfg where
  cmode : Nat := 2      -- 1 = device, 2 = controller
  caddr : Nat := 0      -- this node's own (controller) address
  paddr : Nat := 1      -- primary address of the remote device
  eoi : Bool := false   -- assert EOI handling on send
  eos : Nat := 0        -- send terminator code 0..3
  eor : Nat := 0        -- receive terminator code 0..7
  eot_en : Bool := false
  eot_ch : Nat := 0
  stat : Nat := 0       -- device status byte
  idn : Nat := 0        -- *IDN? reply mode 0..2
deriving DecidableEq, Repr

/-- Wire-level events produced by the engine. -/
inductive Ev
  | ctrl (s : BusState)          -- setControls(s)
  | cmd (b : Nat)                -- command byte handshaked with ATN asserted
  | dat (b : Nat) (eoi : Bool)   -- data byte handshaked; EOI with DAV iff flag
  | eoiPulse                     -- standalone EOI pulse at the end of sendData
  | rdSB                         -- one status-byte read handshake (spoll loop)
deriving DecidableEq, Repr

/-- Host-visible output lines relevant to the claims. -/
inductive Out
  | srqLine (idx sb : Nat)   -- "SRQ:<idx>,<sb>"
  | statLine (sb : Nat)      -- decimal status byte
  | blank                    -- empty println after an all-device poll
  | overflowError            -- "ERROR - Command buffer overflow!"
deriving DecidableEq, Repr

/-- Mutable engine state threaded through the operations.  `wn` and `rn`
are cursors into the write- and read-handshake outcome oracles. -/
structure St where
  cstate : BusState := .CIDS
  deviceAddressed : Bool := false
  wn : Nat := 0
  rn : Nat := 0
deriving DecidableEq, Repr

/-- Command bytes of a trace, in order. -/
def cmdBytesOf (evs : List Ev) : List Nat :=
  evs.filterMap fun e => match e with | .cmd b => some b | _ => none

/-- Data bytes handshaked onto the bus, in order. -/
def dataBytesOf (evs : List Ev) : List Nat :=
  evs.filterMap fun e => match e with | .dat b _ => some b | _ => none

/-- Trace with the `setControls(CCMS)` (assert-ATN-for-command) events
erased; used to compare against the command sequences the spec lists. -/
def eraseCCMS (evs : List Ev) : List Ev :=
  evs.filter fun e => e ≠ .ctrl .CCMS

/-! ## Bus engine operations

All operations take the write-handshake oracle `wr` (and the spoll read
oracle `rd`) as explicit parameters; `wr n = true` means the n-th write
handshake performed by the engine completes, `wr n = false` that it times
out (or, in device role, is aborted by IFC/ATN).  A byte lands on the bus
only when its handshake completes. -/

/-- Model of `GPIBbus::setControls`: drive the line directions/levels for
the target state and record it in `cstate`. -/
def setControls (st : St) (s : BusState) : St × List Ev :=
  ({ st with cstate := s }, [.ctrl s])

/-- Model of `GPIBbus::writeByte` for a data byte: the three-wire handshake
outcome comes from the oracle; on completion the byte is driven with EOI
asserted together with DAV iff `cfg.eoi` and this is the last byte (stage
6 of the source).  Returns the new state, `true` iff the handshake
completed, and the wire events. -/
def writeByteData (wr : Nat → Bool) (cfg : Cfg) (st : St) (db : Nat)
    (isLastByte : Bool) : St × Bool × List Ev :=
  let ok := wr st.wn
  ({ st with wn := st.wn + 1 }, ok,
   if ok then [.dat db (cfg.eoi && isLastByte)] else [])

/-- Model of `GPIBbus::sendCmd`: enter CCMS (assert ATN) if not already
there, then handshake one command byte.  Returns `true` for ERR exactly
when the source does. -/
def sendCmd (wr : Nat → Bool) (st : St) (cmdByte : Nat) : St × Bool × List Ev :=
  let (st, evs) :=
    if st.cstate ≠ .CCMS then ({ st with cstate := BusState.CCMS }, [Ev.ctrl .CCMS])
    else (st, [])
  let ok := wr st.wn
  ({ st with wn := st.wn + 1 }, !ok, evs ++ if ok then [.cmd cmdByte] else [])

/-- Model of `GPIBbus::addressDevice` (refactored engine): UNL then
LAD+addr (listen) or TAD+addr (talk); sets `deviceAddressed` on success. -/
def addressDevice (wr : Nat → Bool) (st : St) (addr : Nat) (talk : Bool) :
    St × Bool × List Ev :=
  let (st, e1, t1) := sendCmd wr st GC_UNL
  if e1 then (st, true, t1) else
  let (st, e2, t2) :=
    if talk then sendCmd wr st (GC_TAD + addr)
    else sendCmd wr st (GC_LAD + addr)
  if e2 then (st, true, t1 ++ t2) else
  ({ st with deviceAddressed := true }, false, t1 ++ t2)

/-- Model of `GPIBbus::unAddressDevice`: UNL then UNT, clearing the
`deviceAddressed` flag on success. -/
def unAddressDevice (wr : Nat → Bool) (st : St) : St × Bool × List Ev :=
  let (st, e1, t1) := sendCmd wr st GC_UNL
  if e1 then (st, true, t1) else
  let (st, e2, t2) := sendCmd wr st GC_UNT
  if e2 then (st, true, t1 ++ t2) else
  ({ st with deviceAddressed := false }, false, t1 ++ t2)

/-- Command bytes issued by the legacy `addrDev` in `AR488.ino` (all
handshakes completing): the controller addresses itself before the target
device (`dir`: 0 = listen, 1 = talk). -/
def addrDevBytes (caddr addr : Nat) (dir : Bool) : List Nat :=
  if dir then [GC_UNL, GC_LAD + caddr, GC_TAD + addr]
  else [GC_UNL, GC_TAD + caddr, GC_LAD + addr]

/-- Byte-write loop of `GPIBbus::sendData`: every byte is written with
`NO_EOI`; in the non-EOI branch the source guard
`(data[i] != CR) || (data[i] != LF) || (data[i] != ESC)` is kept verbatim
(it is a tautology, so no byte is ever skipped).  Stops at the first
failed handshake, like the source's `if (err) break`. -/
def sendDataLoop (wr : Nat → Bool) (cfg : Cfg) (st : St) :
    List Nat → St × Bool × List Ev
  | [] => (st, false, [])
  | b :: rest =>
    let (st1, ok, t1) :=
      if cfg.eoi then writeByteData wr cfg st b NO_EOI
      else if b ≠ CR ∨ b ≠ LF ∨ b ≠ ESC then writeByteData wr cfg st b NO_EOI
      else (st, true, [])
    if !ok then (st1, true, t1) else
    let (st2, err, t2) := sendDataLoop wr cfg st1 rest
    (st2, err, t1 ++ t2)

/-- Model of `GPIBbus::sendData`: enter the talker state, write the
payload, append the EOS terminator bytes (unless a write failed), pulse
EOI if enabled, and return to the idle state. -/
def sendData (wr : Nat → Bool) (cfg : Cfg) (st : St) (data : List Nat) :
    St × List Ev :=
  let (st, t0) :=
    if cfg.cmode = 2 then setControls st .CTAS else setControls st .DTAS
  let (st, err, t1) := sendDataLoop wr cfg st data
  let (st, t2) :=
    if err = false then
      let (stc, _, tc) :=
        if cfg.eos &&& 0x2 = 0 then writeByteData wr cfg st CR NO_EOI
        else (st, true, [])
      let (stl, _, tl) :=
        if cfg.eos &&& 0x1 = 0 then writeByteData wr cfg stc LF NO_EOI
        else (stc, true, [])
      (stl, tc ++ tl)
    else (st, [])
  let t3 : List Ev := if cfg.eoi then [.eoiPulse] else []
  let (st, t4) :=
    if cfg.cmode = 2 then setControls st .CIDS else setControls st .DIDS
  (st, t0 ++ t1 ++ t2 ++ t3 ++ t4)

/-- Model of `sendToInstrument` (main module): address the configured
device to listen if not already addressed, send the buffer, then
unaddress unless the parse buffer overflowed mid-line
(`dataBufferFull`). -/
def sendToInstrument (wr : Nat → Bool) (cfg : Cfg) (st : St)
    (buffr : List Nat) (dataBufferFull : Bool) : St × List Ev :=
  let (st, t0) :=
    if !st.deviceAddressed then
      let (st, _, t) := addressDevice wr st cfg.paddr false  -- LISTEN
      (st, t)
    else (st, [])
  let (st, t1) := sendData wr cfg st buffr
  let (st, t2) :=
    if dataBufferFull then (st, [])
    else
      let (st, _, t) := unAddressDevice wr st
      (st, t)
  (st, t0 ++ t1 ++ t2)

/-! ## Receive path -/

/-- Outcome of one `GPIBbus::readByte` handshake: a byte together with the
sampled EOI-line state, or a timeout (which also covers the device-role
IFC/ATN aborts, stages 1-2 of the source). -/
inductive RdRes
  | ok (db : Nat) (eoiLine : Bool)
  | timeout
deriving DecidableEq, Repr

/-- Model of `GPIBbus::isTerminatorDetected` (`bytes[0]` is the byte just
read, `bytes[1]`/`bytes[2]` the two before it). -/
def isTerminatorDetected (b0 b1 b2 : Nat) (eorSequence : Nat) : Bool :=
  match eorSequence with
  | 0 => b0 == LF && b1 == CR          -- CR+LF
  | 1 => b0 == CR                      -- CR only
  | 2 => b0 == LF                      -- LF only
  | 3 => false                         -- none (rely on timeout)
  | 4 => b0 == CR && b1 == LF          -- LF+CR
  | 5 => b0 == 0x03                    -- ETX
  | 6 => b0 == 0x03 && b1 == LF && b2 == CR  -- CR+LF+ETX
  | _ => b0 == LF && b1 == CR          -- default: CR+LF

/-- Read loop of `GPIBbus::receiveData`.  `input` lists the successive
handshake outcomes offered by the talker; an exhausted list behaves as a
timeout on the next handshake.  The ATN line is modelled as never asserted
during the loop (the claims under proof concern content-driven
termination) and `txBreak`, reset on entry, is never raised within the
modelled scope.  `b1`/`b2` are `bytes[1]`/`bytes[2]`.  Returns the bytes
printed to the host stream, the `eoiDetected` flag after the last
`readByte`, and whether the loop ended in error (`r > 0`). -/
def receiveLoop (readWithEoi detectEndByte : Bool) (endByte eor : Nat) :
    List RdRes → Nat → Nat → List Nat × Bool × Bool
  | [], _, _ => ([], false, true)
  | .timeout :: _, _, _ => ([], false, true)
  | .ok db eoiLine :: rest, b1, b2 =>
    let eoiDetected := readWithEoi && eoiLine
    if readWithEoi then
      if eoiDetected then ([db], eoiDetected, false)
      else
        let (ds, e, er) := receiveLoop readWithEoi detectEndByte endByte eor rest db b1
        (db :: ds, e, er)
    else if detectEndByte then
      -- source line: `if (r == endByte) break;` with r = 0 at this point
      if 0 = endByte then ([db], eoiDetected, false)
      else
        let (ds, e, er) := receiveLoop readWithEoi detectEndByte endByte eor rest db b1
        (db :: ds, e, er)
    else
      if isTerminatorDetected db b1 b2 eor then ([db], eoiDetected, false)
      else
        let (ds, e, er) := receiveLoop readWithEoi detectEndByte endByte eor rest db b1
        (db :: ds, e, er)

/-- Result of `GPIBbus::receiveData`. -/
structure RcvRes where
  st : St
  delivered : List Nat   -- bytes printed to the host stream by the loop
  eotAppended : Bool     -- cfg.eot_ch printed after EOI detection
  err : Bool             -- returned ERR
  evs : List Ev
deriving DecidableEq, Repr

/-- Model of `GPIBbus::receiveData`: EOI is the sole terminator when
`cfg.eoi`, `detectEoi` or `cfg.eor == 7` (and always in device role); the
controller addresses the device to talk (ignoring the result, as the
source does), runs the read loop, and restores the idle state. -/
def receiveData (wr : Nat → Bool) (cfg : Cfg) (st : St)
    (detectEoi detectEndByte : Bool) (endByte : Nat) (input : List RdRes) :
    RcvRes :=
  let eor := cfg.eor &&& 7
  let readWithEoi := cfg.eoi || detectEoi || cfg.eor == 7
  let (st, t0, rwe) :=
    if cfg.cmode = 2 then
      let (st, _, ta) := addressDevice wr st cfg.paddr true
      let (st, tb) := setControls st .CLAS
      (st, ta ++ tb, readWithEoi)
    else
      let (st, tb) := setControls st .DLAS
      (st, tb, true)   -- in device mode we read with EOI by default
  let (delivered, eoiDetected, err) := receiveLoop rwe detectEndByte endByte eor input 0 0
  let eot := eoiDetected && cfg.eot_en
  let (st, t1) :=
    if cfg.cmode = 2 then
      let (st, _, ta) := unAddressDevice wr st
      let (st, tb) := setControls st .CIDS
      (st, ta ++ tb)
    else
      let (st, tb) := setControls st .DIDS
      (st, tb)
  ⟨st, delivered, eot, err, t0 ++ t1⟩

/-! ## Device-role serial-poll response -/

/-- Result of `GPIBbus::sendStatus` / `device_spe_h`: the status byte lives
in `cfg`, and `srqAsserted` is the driven state of the SRQ line. -/
structure SpeRes where
  st : St
  cfg : Cfg
  srqAsserted : Bool
  evs : List Ev
deriving DecidableEq, Repr

/-- Model of `GPIBbus::setStatus`: store the byte and assert SRQ iff its
bit 6 is set.  Returns the new config and the SRQ line state. -/
def setStatus (cfg : Cfg) (statusByte : Nat) : Cfg × Bool :=
  ({ cfg with stat := statusByte }, statusByte &&& 0x40 ≠ 0)

/-- Model of `GPIBbus::sendStatus`: enter DTAS if needed, handshake the
status byte with `NO_EOI`, return to DIDS, clear bit 6 of the stored
status byte (`& ~0x40` on a `uint8_t` is `&&& 0xBF`), and de-assert SRQ. -/
def sendStatus (wr : Nat → Bool) (cfg : Cfg) (st : St) : SpeRes :=
  let (st, t0) := if st.cstate ≠ .DTAS then setControls st .DTAS else (st, [])
  let (st, _, t1) := writeByteData wr cfg st cfg.stat NO_EOI
  let (st, t2) := setControls st .DIDS
  let cfg := { cfg with stat := cfg.stat &&& 0xBF }
  ⟨st, cfg, false, t0 ++ t1 ++ t2⟩

/-- Model of `device_spe_h` (main module): send the status, then clear the
RQS bit again through `setStatus` if it is still set. -/
def device_spe_h (wr : Nat → Bool) (cfg : Cfg) (st : St) : SpeRes :=
  let r := sendStatus wr cfg st
  if r.cfg.stat &&& 0x40 ≠ 0 then
    let (cfg2, srq) := setStatus r.cfg (r.cfg.stat &&& 0xBF)
    ⟨r.st, cfg2, srq, r.evs⟩
  else r

/-! ## Controller handlers -/

/-- Model of `dcl_h` (main module): send universal DCL; on failure the
handler returns early, otherwise it restores CIDS. -/
def dcl_h (wr : Nat → Bool) (st : St) : St × List Ev :=
  let (st, e, t) := sendCmd wr st GC_DCL
  if e then (st, t) else
  let (st, t2) := setControls st .CIDS
  (st, t ++ t2)

/-- Model of `GPIBbus::sendGET`: address the target to listen, send GET,
unaddress. -/
def sendGET (wr : Nat → Bool) (st : St) (addr : Nat) : St × Bool × List Ev :=
  let (st, e1, t1) := addressDevice wr st addr false
  if e1 then (st, true, t1) else
  let (st, e2, t2) := sendCmd wr st GC_GET
  if e2 then (st, true, t1 ++ t2) else
  let (st, e3, t3) := unAddressDevice wr st
  if e3 then (st, true, t1 ++ t2 ++ t3) else
  (st, false, t1 ++ t2 ++ t3)

/-- Trigger loop of `trg_h`: GET each address, returning early from the
handler on the first failure. -/
def trgLoop (wr : Nat → Bool) (st : St) : List Nat → St × Bool × List Ev
  | [] => (st, false, [])
  | a :: rest =>
    let (st, e, t) := sendGET wr st a
    if e then (st, true, t) else
    let (st2, e2, t2) := trgLoop wr st rest
    (st2, e2, t ++ t2)

/-- Model of `trg_h` (main module) after parameter parsing: `addrs` is the
(nonempty) address list.  On failure the handler returns early, otherwise
it restores CIDS. -/
def trg_h (wr : Nat → Bool) (st : St) (addrs : List Nat) : St × List Ev :=
  let (st, e, t) := trgLoop wr st addrs
  if e then (st, t) else
  let (st, t2) := setControls st .CIDS
  (st, t ++ t2)

/-! ## Serial poll handler -/

/-- Parsed parameter of `spoll_h`: the word `all`, or a list of addresses
(the source collects at most 15; `params == NULL` becomes
`.addrs [cfg.paddr]`). -/
inductive SpollArg
  | all
  | addrs (l : List Nat)
deriving DecidableEq, Repr

/-- Poll loop of `spoll_h` over the address values `vals` (loop indices for
`all`, the parsed array otherwise).  `rd` is the status-read oracle indexed
by the engine's read cursor (`none` = handshake failed).  The source skips
the controller's own address, exits the handler (`return`) if a TAD
command fails, and leaves the loop at the first successful response (for
`all`, only a response with bit 6 set, reported as an SRQ line).  The
returned Bool reports the early handler `return`. -/
def spollLoop (wr : Nat → Bool) (rd : Nat → Option Nat) (cfg : Cfg)
    (all : Bool) : St → List Nat → St × Bool × List Ev × List Out
  | st, [] => (st, false, [], [])
  | st, i :: rest =>
    if i = cfg.caddr then spollLoop wr rd cfg all st rest
    else
      let (st, e, t0) := sendCmd wr st (GC_TAD + i)
      if e then (st, true, t0, []) else
      let (st, t1) := setControls st .CLAS
      let sbRes := rd st.rn
      let st := { st with rn := st.rn + 1 }
      let t2 : List Ev := [.rdSB]
      match sbRes with
      | some sb =>
        if all then
          if sb &&& 0x40 ≠ 0 then
            (st, false, t0 ++ t1 ++ t2, [.srqLine i sb])
          else
            let (st, ab, t3, o3) := spollLoop wr rd cfg all st rest
            (st, ab, t0 ++ t1 ++ t2 ++ t3, o3)
        else
          (st, false, t0 ++ t1 ++ t2, [.statLine sb])
      | none =>
        let (st, ab, t3, o3) := spollLoop wr rd cfg all st rest
        (st, ab, t0 ++ t1 ++ t2 ++ t3, o3)

/-- Loop values polled by `spoll_h` for a given argument. -/
def spollVals (cfg : Cfg) : SpollArg → List Nat
  | .all => List.range 30
  | .addrs l => l

/-- Model of `spoll_h` (main module) after parameter parsing: UNL, address
self to listen, SPE, poll, then SPD, UNT, UNL and CIDS; every failed
command makes the handler return immediately. -/
def spoll_h (wr : Nat → Bool) (rd : Nat → Option Nat) (cfg : Cfg) (st : St)
    (arg : SpollArg) : St × List Ev × List Out :=
  let all : Bool := arg = SpollArg.all
  let vals := spollVals cfg arg
  let (st, e1, t1) := sendCmd wr st GC_UNL
  if e1 then (st, t1, []) else
  let (st, e2, t2) := sendCmd wr st (GC_LAD + cfg.caddr)
  if e2 then (st, t1 ++ t2, []) else
  let (st, e3, t3) := sendCmd wr st GC_SPE
  if e3 then (st, t1 ++ t2 ++ t3, []) else
  let (st, ab, t4, o4) := spollLoop wr rd cfg all st vals
  if ab then (st, t1 ++ t2 ++ t3 ++ t4, o4) else
  let o5 : List Out := if all then [.blank] else []
  let (st, e5, t5) := sendCmd wr st GC_SPD
  if e5 then (st, t1 ++ t2 ++ t3 ++ t4 ++ t5, o4 ++ o5) else
  let (st, e6, t6) := sendCmd wr st GC_UNT
  if e6 then (st, t1 ++ t2 ++ t3 ++ t4 ++ t5 ++ t6, o4 ++ o5) else
  let (st, e7, t7) := sendCmd wr st GC_UNL
  if e7 then (st, t1 ++ t2 ++ t3 ++ t4 ++ t5 ++ t6 ++ t7, o4 ++ o5) else
  let (st, t8) := setControls st .CIDS
  (st, t1 ++ t2 ++ t3 ++ t4 ++ t5 ++ t6 ++ t7 ++ t8, o4 ++ o5)

/-! ## Device-role attention service: command burst -/

/-- Declared size of the `cmdbytes` array in `attnRequired`
(`uint8_t cmdbytes[5]`). -/
def cmdbytesSize : Nat := 5

/-- Burst limit `cmdbuflen` in `attnRequired` (`const uint8_t
cmdbuflen = 35`). -/
def cmdbuflen : Nat := 35

/-- Command-byte burst loop of `attnRequired`: handshake outcomes arrive in
`input` while ATN stays asserted (`none` is a failed read, which breaks
the loop; the list ending models ATN release).  UNL/UNT only set `ustat`
bits; every other byte is stored at `cmdbytes[bytecnt]` and `bytecnt` is
incremented.  Returns the (index, byte) stores performed on `cmdbytes`. -/
def attnBurstStores (bytecnt : Nat) : List (Option Nat) → List (Nat × Nat)
  | [] => []
  | none :: _ => []
  | some db :: rest =>
    if bytecnt < cmdbuflen then
      if db = 0x3F then attnBurstStores bytecnt rest
      else if db = 0x5F then attnBurstStores bytecnt rest
      else (bytecnt, db) :: attnBurstStores (bytecnt + 1) rest
    else []

/-! ## Line interpreter -/

/-- Parse-buffer capacity `PBSIZE`. -/
def PBSIZE : Nat := 256

/-- Interpreter state: `buf` is the filled part of `pBuf` (so `pbPtr` is
`buf.length`; the C buffer is zero-filled past the fill pointer). -/
structure PState where
  buf : List Nat := []
  isEsc : Bool := false
  isPlusEscaped : Bool := false
  dataBufferFull : Bool := false
  isVerbose : Bool := false
  sendIdn : Bool := false
  idn : Nat := 0              -- gpibBus.cfg.idn
deriving DecidableEq, Repr

/-- Model of `isCmd`: the zero-filled C buffer makes positions past the
fill read as 0. -/
def isCmdBuf (buf : List Nat) : Bool :=
  buf.getD 0 0 == PLUS && buf.getD 1 0 == PLUS

/-- ASCII lower-casing of one byte (for the `strncasecmp` model). -/
def toLowerByte (c : Nat) : Nat :=
  if 0x41 ≤ c ∧ c ≤ 0x5A then c + 0x20 else c

/-- Model of `isIdnQuery`: case-insensitive match of the first five buffer
bytes against `*idn?`. -/
def isIdnQueryBuf (buf : List Nat) : Bool :=
  ((buf.take 5).map toLowerByte) == [0x2A, 0x69, 0x64, 0x6E, 0x3F]

/-- Character switch of `parseInput`.  Returns the state, the line status
`r` and the early-return flag (the source returns 0 straight away on a
terminator with an empty buffer). -/
def parseSwitch (s : PState) (c : Nat) : PState × Nat × Bool :=
  if c = CR ∨ c = LF then
    if s.isEsc then ({ s with buf := s.buf ++ [c], isEsc := false }, 0, false)
    else if s.buf.length = 0 then ({ s with buf := [] }, 0, true)
    else
      let (s, r) :=
        if s.buf.length > 2 ∧ isCmdBuf s.buf = true ∧ s.isPlusEscaped = false then
          if s.buf.getD 2 0 = 0x21 then ({ s with buf := [] }, 3) else (s, 1)
        else if s.buf.length > 3 ∧ s.idn > 0 ∧ isIdnQueryBuf s.buf = true then
          ({ s with sendIdn := true, buf := [] }, 0)
        else if s.buf.length > 0 then (s, 2)
        else (s, 0)
      ({ s with isPlusEscaped := false }, r, false)
  else if c = ESC then
    if s.isEsc then ({ s with buf := s.buf ++ [c], isEsc := false }, 0, false)
    else ({ s with isEsc := true }, 0, false)
  else if c = PLUS then
    let s :=
      if s.isEsc then
        { s with isEsc := false,
                 isPlusEscaped := decide (s.buf.length < 2) || s.isPlusEscaped }
      else s
    ({ s with buf := s.buf ++ [c] }, 0, false)
  else ({ s with buf := s.buf ++ [c], isEsc := false }, 0, false)

/-- Model of `parseInput` (main module): feed one host byte.  Returns the
new state, the line status `r` (0 = incomplete, 1 = interface command,
2 = instrument data, 3 = break command `++!`) and any error output.  The
verbose echo print is not modelled. -/
def parseInput (s : PState) (c : Nat) : PState × Nat × List Out :=
  let (s1, r, early) :=
    if s.buf.length < PBSIZE then parseSwitch s c else (s, 0, false)
  if early then (s1, r, []) else
  if PBSIZE ≤ s1.buf.length then
    if isCmdBuf s1.buf = true ∧ r = 0 then
      ({ s1 with buf := [] }, r, if s1.isVerbose then [.overflowError] else [])
    else
      ({ s1 with dataBufferFull := true }, 2, [])
  else (s1, r, [])

/-- Model of the `serialIn_h` read loop: parse successive host bytes while
the line status stays 0. -/
def feedBytes (s : PState) : List Nat → PState × Nat × List Out
  | [] => (s, 0, [])
  | c :: cs =>
    let (s1, r, o1) := parseInput s c
    if r = 0 then
      let (s2, r2, o2) := feedBytes s1 cs
      (s2, r2, o1 ++ o2)
    else (s1, r, o1)

/-! ## Spec-side reference functions

These definitions transcribe the sentences of the specification (the
tables of terminator sequences, the claimed poll behaviour); the theorems
relate them to the source-derived operations above. -/

/-- Terminator bytes appended on send for an `eos` code, per the
configuration table (0 = CR+LF, 1 = CR, 2 = LF, 3 = none). -/
def eosBytes : Nat → List Nat
  | 0 => [CR, LF]
  | 1 => [CR]
  | 2 => [LF]
  | _ => []

/-- Bytes delivered when EOI is the sole terminator: everything up to and
including the first byte carrying EOI (all of them if none does). -/
def takeThroughEoi : List (Nat × Bool) → List Nat
  | [] => []
  | (b, e) :: rest => if e then [b] else b :: takeThroughEoi rest

/-- Receive terminator sequences in arrival order, per the `eor`
configuration table (sequence 3 is "none", 7 is EOI-only). -/
def eorSeqBytes : Nat → List Nat
  | 0 => [CR, LF]
  | 1 => [CR]
  | 2 => [LF]
  | 3 => []
  | 4 => [LF, CR]
  | 5 => [0x03]
  | 6 => [CR, LF, 0x03]
  | _ => []

/-- Whether the received bytes (most recent first in `rev`) end with the
`eor` terminator sequence. -/
def termHit (eor : Nat) (rev : List Nat) : Bool :=
  let sr := (eorSeqBytes eor).reverse
  sr ≠ [] && rev.take sr.length == sr

/-- Bytes delivered until the received data first ends with the `eor`
sequence; `rev` accumulates the bytes already received, most recent
first. -/
def takeUntilTermGo (eor : Nat) (rev : List Nat) : List Nat → List Nat
  | [] => []
  | b :: rest =>
    if termHit eor (b :: rev) then [b]
    else b :: takeUntilTermGo eor (b :: rev) rest

/-- Bytes delivered when terminating on the `eor` sequence (everything if
the sequence never appears). -/
def takeUntilTerm (eor : Nat) (l : List Nat) : List Nat :=
  takeUntilTermGo eor [] l

/-- All-success read stream for the receive loop. -/
def okStream (l : List (Nat × Bool)) : List RdRes :=
  l.map fun p => .ok p.1 p.2

/-- Addresses actually polled by the spoll loop, as a function of the claim
parameters and the read oracle (cursor `k`): the controller's own address
is skipped; a failed read moves on; a successful read ends the poll -
immediately in the explicit-address case, and at the first status byte
with bit 6 set in the `all` case. -/
def spollPolled (caddr : Nat) (rd : Nat → Option Nat) (all : Bool) :
    List Nat → Nat → List Nat
  | [], _ => []
  | a :: rest, k =>
    if a = caddr then spollPolled caddr rd all rest k
    else
      match rd k with
      | some sb =>
        if all then
          if sb &&& 0x40 ≠ 0 then [a]
          else a :: spollPolled caddr rd all rest (k + 1)
        else [a]
      | none => a :: spollPolled caddr rd all rest (k + 1)

/-- Output lines of the spoll loop, as a function of the claim parameters
and the read oracle. -/
def spollOuts (caddr : Nat) (rd : Nat → Option Nat) (all : Bool) :
    List Nat → Nat → List Out
  | [], _ => []
  | a :: rest, k =>
    if a = caddr then spollOuts caddr rd all rest k
    else
      match rd k with
      | some sb =>
        if all then
          if sb &&& 0x40 ≠ 0 then [.srqLine a sb]
          else spollOuts caddr rd all rest (k + 1)
        else [.statLine sb]
      | none => spollOuts caddr rd all rest (k + 1)

/-! ## C9 - data bus loopback -/

/-- C9: driving any byte b onto the data bus with `setGpibDbus` and
sampling with `readGpibDbus` on a loopback (PINB/PIND read back
PORTB/PORTD) returns exactly b, whatever the previous register contents;
both primitives apply the negative-logic inversion, so the driven data
bits are the complement of b. -/
theorem readGpibDbus_setGpibDbus (b portB portD : Nat) (hb : b < 256) :
    readGpibDbus (setGpibDbus portB portD b).1 (setGpibDbus portB portD b).2 = b ∧
    (setGpibDbus portB portD b).1 &&& 126 = (b ^^^ 255) &&& 126 ∧
    (setGpibDbus portB portD b).2 &&& 129 = (b ^^^ 255) &&& 129 := by
  refine ⟨?_, ?_, ?_⟩
  · unfold readGpibDbus setGpibDbus
    simp only
    rw [mask_extract 126 129 (by decide), mask_extract 129 126 (by decide)]
    rw [and_or_combine, and_255 _ (xor_255_lt b hb), Nat.xor_assoc]
    simp
  · unfold setGpibDbus
    simp only
    exact mask_extract 129 126 (by decide) portB (b ^^^ 255)
  · unfold setGpibDbus
    simp only
    exact mask_extract 126 129 (by decide) portD (b ^^^ 255)

/-- C9 witness: loopback at b = 0x47 from dirty registers. -/
theorem readGpibDbus_setGpibDbus_witness :
    readGpibDbus (setGpibDbus 0xAB 0xCD 0x47).1 (setGpibDbus 0xAB 0xCD 0x47).2 = 0x47 ∧
    (setGpibDbus 0xAB 0xCD 0x47).1 &&& 126 = (0x47 ^^^ 255) &&& 126 ∧
    (setGpibDbus 0xAB 0xCD 0x47).2 &&& 129 = (0x47 ^^^ 255) &&& 129 :=
  readGpibDbus_setGpibDbus 0x47 0xAB 0xCD (by decide)

/-! ## C10 - attention-service burst stores -/

/-- C10: the claim that every store into `cmdbytes` stays within the
array's declared bounds fails on the code: the burst loop runs `bytecnt`
up to `cmdbuflen = 35` while `cmdbytes` is declared with 5 elements, so a
burst of six ordinary command bytes (here six GTL bytes, ATN held) makes
the sixth store go to index 5, outside `uint8_t cmdbytes[5]`. -/
theorem attnBurstStores_out_of_bounds :
    attnBurstStores 0 (List.replicate 6 (some GC_GTL)) =
      [(0, GC_GTL), (1, GC_GTL), (2, GC_GTL), (3, GC_GTL), (4, GC_GTL), (5, GC_GTL)] ∧
    (5, GC_GTL) ∈ attnBurstStores 0 (List.replicate 6 (some GC_GTL)) ∧
    ¬ 5 < cmdbytesSize ∧ cmdbytesSize = 5 ∧ cmdbuflen = 35 := by
  decide

/-! ## C7 - serial-poll response -/

/-- C7: handling SPE in device role (`device_spe_h`) enters DTAS (unless
already there), handshakes the configured status byte (when the
handshake completes), returns to DIDS, clears bit 6 of the stored status
byte and de-asserts SRQ; afterwards bit 6 of the status byte reads 0. -/
theorem device_spe_h_spec (wr : Nat → Bool) (cfg : Cfg) (st : St) :
    (device_spe_h wr cfg st).evs =
      (if st.cstate = .DTAS then [] else [.ctrl .DTAS]) ++
      (if wr st.wn then [.dat cfg.stat false] else []) ++ [.ctrl .DIDS] ∧
    (device_spe_h wr cfg st).st.cstate = .DIDS ∧
    (device_spe_h wr cfg st).cfg.stat = cfg.stat &&& 0xBF ∧
    (device_spe_h wr cfg st).srqAsserted = false ∧
    (device_spe_h wr cfg st).cfg.stat.testBit 6 = false := by
  have h191 : Nat.testBit 191 6 = false := by decide
  have h40 : ∀ x : Nat, (x &&& 0xBF) &&& 0x40 = 0 := by
    intro x
    rw [Nat.and_assoc]
    simp [show (0xBF &&& 0x40 : Nat) = 0 by decide]
  unfold device_spe_h sendStatus writeByteData setControls
  simp only [h40, ne_eq, not_true_eq_false, if_false]
  by_cases hst : st.cstate = .DTAS <;>
    cases hwr : wr st.wn <;>
      simp_all [h191, Bool.and_eq_false_iff, NO_EOI]

/-! ## Helper equations for successful handshakes -/

/-- Evaluation of `sendCmd` when the handshake completes. -/
theorem sendCmd_ok (wr : Nat → Bool) (st : St) (b : Nat) (h : wr st.wn = true) :
    sendCmd wr st b =
      ({ st with cstate := .CCMS, wn := st.wn + 1 }, false,
       (if st.cstate = .CCMS then [] else [Ev.ctrl .CCMS]) ++ [Ev.cmd b]) := by
  obtain ⟨cs, da, wn, rn⟩ := st
  unfold sendCmd
  by_cases hc : cs = BusState.CCMS <;> simp_all

/-- Evaluation of `sendCmd` when the handshake times out. -/
theorem sendCmd_fail (wr : Nat → Bool) (st : St) (b : Nat) (h : wr st.wn = false) :
    sendCmd wr st b =
      ({ st with cstate := .CCMS, wn := st.wn + 1 }, true,
       if st.cstate = .CCMS then [] else [Ev.ctrl .CCMS]) := by
  obtain ⟨cs, da, wn, rn⟩ := st
  unfold sendCmd
  by_cases hc : cs = BusState.CCMS <;> simp_all

/-! ## C3 - addressing sequences -/

/-- C3 counterexample: the refactored engine's address-to-listen for
address 5 (all handshakes completing, controller address 0) issues only
UNL and LAD+5, not the claimed UNL, TAD+controller_address, LAD+5. -/
theorem addressDevice_counterexample :
    cmdBytesOf (addressDevice (fun _ => true) ⟨.CIDS, false, 0, 0⟩ 5 false).2.2 =
      [GC_UNL, GC_LAD + 5] ∧
    cmdBytesOf (addressDevice (fun _ => true) ⟨.CIDS, false, 0, 0⟩ 5 false).2.2 ≠
      [GC_UNL, GC_TAD + 0, GC_LAD + 5] := by
  decide

/-- C3 amended: the refactored `GPIBbus::addressDevice` sends UNL then
LAD+addr (listen) or UNL then TAD+addr (talk), without the controller
self-address command, and sets the addressed flag; the three-command
sequences of the claim are those of the legacy `addrDev` in `AR488.ino`. -/
theorem addressDevice_spec (wr : Nat → Bool) (st : St) (addr : Nat) (talk : Bool)
    (hwr : ∀ n, wr n = true) :
    (addressDevice wr st addr talk).2.1 = false ∧
    cmdBytesOf (addressDevice wr st addr talk).2.2 =
      [GC_UNL, if talk then GC_TAD + addr else GC_LAD + addr] ∧
    (addressDevice wr st addr talk).1.deviceAddressed = true ∧
    (∀ caddr a, addrDevBytes caddr a false = [GC_UNL, GC_TAD + caddr, GC_LAD + a] ∧
      addrDevBytes caddr a true = [GC_UNL, GC_LAD + caddr, GC_TAD + a]) := by
  unfold addressDevice
  rw [sendCmd_ok wr st GC_UNL (hwr _)]
  cases talk <;>
    simp [sendCmd_ok, hwr, cmdBytesOf, addrDevBytes] <;>
    by_cases hc : st.cstate = BusState.CCMS <;> simp [hc]

/-- C3 witness: address 7 to talk from controller idle, all handshakes
completing. -/
theorem addressDevice_spec_witness :
    (addressDevice (fun _ => true) ⟨.CIDS, false, 0, 0⟩ 7 true).2.1 = false ∧
    cmdBytesOf (addressDevice (fun _ => true) ⟨.CIDS, false, 0, 0⟩ 7 true).2.2 =
      [GC_UNL, if true then GC_TAD + 7 else GC_LAD + 7] ∧
    (addressDevice (fun _ => true) ⟨.CIDS, false, 0, 0⟩ 7 true).1.deviceAddressed = true ∧
    (∀ caddr a, addrDevBytes caddr a false = [GC_UNL, GC_TAD + caddr, GC_LAD + a] ∧
      addrDevBytes caddr a true = [GC_UNL, GC_LAD + caddr, GC_TAD + a]) :=
  addressDevice_spec (fun _ => true) ⟨.CIDS, false, 0, 0⟩ 7 true (fun _ => rfl)

/-! ## C4 - end-byte termination -/

/-- C4: the end-byte termination mode is broken in the refactored
`receiveData`: the source compares the `readByte` status code `r` (0 after
a successful read) with `endByte` instead of the byte just read
(`bytes[0]`; the legacy `AR488.ino` loop correctly compares `db==eByte`).
With `endByte = 65` a received byte 65 does not stop the loop, and with
`endByte = 0` every first byte stops it. -/
theorem receiveData_endByte_ignored :
    (receiveData (fun _ => true) { eor := 3 } ⟨.CIDS, false, 0, 0⟩ false true 65
        (okStream [(65, false), (66, false)])).delivered = [65, 66] ∧
    (receiveData (fun _ => true) { eor := 3 } ⟨.CIDS, false, 0, 0⟩ false true 65
        (okStream [(65, false), (66, false)])).delivered ≠ [65] ∧
    (receiveData (fun _ => true) { eor := 3 } ⟨.CIDS, false, 0, 0⟩ false true 0
        (okStream [(65, false), (66, false)])).delivered = [65] := by
  decide

/-! ## Final-state lemmas (C1 support) -/

/-- The send path always restores the idle state for the configured role. -/
theorem sendData_final (wr : Nat → Bool) (cfg : Cfg) (st : St) (data : List Nat) :
    (sendData wr cfg st data).1.cstate =
      if cfg.cmode = 2 then BusState.CIDS else BusState.DIDS := by
  unfold sendData
  by_cases h : cfg.cmode = 2 <;> simp [h, setControls]

/-- The receive path always restores the idle state for the configured
role. -/
theorem receiveData_final (wr : Nat → Bool) (cfg : Cfg) (st : St)
    (detectEoi detectEndByte : Bool) (endByte : Nat) (input : List RdRes) :
    (receiveData wr cfg st detectEoi detectEndByte endByte input).st.cstate =
      if cfg.cmode = 2 then BusState.CIDS else BusState.DIDS := by
  unfold receiveData
  by_cases h : cfg.cmode = 2 <;> simp [h, setControls]

/-- The spoll loop never aborts when every command handshake completes. -/
theorem spollLoop_no_abort (wr : Nat → Bool) (rd : Nat → Option Nat)
    (cfg : Cfg) (all : Bool) (hwr : ∀ n, wr n = true) :
    ∀ (vals : List Nat) (st : St),
      (spollLoop wr rd cfg all st vals).2.1 = false := by
  intro vals
  induction vals with
  | nil => intro st; simp [spollLoop]
  | cons i rest ih =>
    intro st
    by_cases hca : i = cfg.caddr
    · simp [spollLoop, hca, ih]
    · rw [spollLoop]
      simp only [hca, if_false, sendCmd_ok wr _ _ (hwr _), setControls]
      cases hrd : rd st.rn with
      | none => simp [hrd, ih]
      | some sb =>
        cases all <;> by_cases hb : sb &&& 0x40 = 0 <;> simp [hrd, hb, ih]

/-- The serial-poll handler ends in CIDS when every command handshake
completes. -/
theorem spoll_h_final (wr : Nat → Bool) (rd : Nat → Option Nat) (cfg : Cfg)
    (st : St) (arg : SpollArg) (hwr : ∀ n, wr n = true) :
    (spoll_h wr rd cfg st arg).1.cstate = BusState.CIDS := by
  unfold spoll_h
  simp only [sendCmd_ok wr _ _ (hwr _)]
  simp [spollLoop_no_abort wr rd cfg _ hwr, sendCmd_ok wr _ _ (hwr _), setControls]

/-- The universal device clear handler ends in CIDS when the command
handshake completes. -/
theorem dcl_h_final (wr : Nat → Bool) (st : St) (h : wr st.wn = true) :
    (dcl_h wr st).1.cstate = BusState.CIDS := by
  unfold dcl_h
  simp [sendCmd_ok wr _ _ h, setControls]

/-- The trigger loop never fails when every command handshake completes. -/
theorem trgLoop_no_err (wr : Nat → Bool) (hwr : ∀ n, wr n = true) :
    ∀ (addrs : List Nat) (st : St), (trgLoop wr st addrs).2.1 = false := by
  intro addrs
  induction addrs with
  | nil => intro st; simp [trgLoop]
  | cons a rest ih =>
    intro st
    rw [trgLoop]
    unfold sendGET addressDevice unAddressDevice
    simp [sendCmd_ok wr _ _ (hwr _), ih]

/-- The group trigger handler ends in CIDS when every command handshake
completes. -/
theorem trg_h_final (wr : Nat → Bool) (st : St) (addrs : List Nat)
    (hwr : ∀ n, wr n = true) :
    (trg_h wr st addrs).1.cstate = BusState.CIDS := by
  unfold trg_h
  simp [trgLoop_no_err wr hwr, setControls]

/-- The host-line send path ends with the unaddress sequence, leaving the
engine in CCMS (commands still being the last bus activity). -/
theorem sendToInstrument_final (wr : Nat → Bool) (cfg : Cfg) (st : St)
    (buffr : List Nat) (hwr : ∀ n, wr n = true) :
    (sendToInstrument wr cfg st buffr false).1.cstate = BusState.CCMS := by
  unfold sendToInstrument unAddressDevice
  simp [sendCmd_ok wr _ _ (hwr _)]

/-! ## C1 - idle state after bus operations -/

/-- C1 counterexample: a universal device clear whose single command
handshake times out returns with the engine still in CCMS, not CIDS (the
handler's early `return` skips `setControls(CIDS)`). -/
theorem dcl_h_timeout_counterexample :
    (dcl_h (fun _ => false) ⟨.CIDS, false, 0, 0⟩).1.cstate = BusState.CCMS ∧
    BusState.CCMS ≠ BusState.CIDS := by
  decide

/-- C1 amended: `GPIBbus::receiveData`, `GPIBbus::sendData` and the
serial-poll response always return in CIDS (controller) / DIDS (device),
even when a handshake times out; the serial-poll, universal-device-clear
and group-trigger handlers return in CIDS when every command handshake
completes, but a timed-out command handshake makes them return still in
CCMS (shown for device clear), and the host-line send path also ends in
CCMS because its trailing unaddress commands leave the bus in command
state. -/
theorem bus_ops_idle_state (wr wrOk : Nat → Bool) (rd : Nat → Option Nat)
    (cfg : Cfg) (st : St) (data : List Nat) (detectEoi detectEndByte : Bool)
    (endByte : Nat) (input : List RdRes) (arg : SpollArg) (addrs : List Nat)
    (hwrOk : ∀ n, wrOk n = true) :
    (receiveData wr cfg st detectEoi detectEndByte endByte input).st.cstate =
      (if cfg.cmode = 2 then BusState.CIDS else BusState.DIDS) ∧
    (sendData wr cfg st data).1.cstate =
      (if cfg.cmode = 2 then BusState.CIDS else BusState.DIDS) ∧
    (sendStatus wr cfg st).st.cstate = BusState.DIDS ∧
    (spoll_h wrOk rd cfg st arg).1.cstate = BusState.CIDS ∧
    (dcl_h wrOk st).1.cstate = BusState.CIDS ∧
    (trg_h wrOk st addrs).1.cstate = BusState.CIDS ∧
    (wr st.wn = false → (dcl_h wr st).1.cstate = BusState.CCMS) ∧
    (sendToInstrument wrOk cfg st data false).1.cstate = BusState.CCMS := by
  refine ⟨receiveData_final wr cfg st detectEoi detectEndByte endByte input,
    sendData_final wr cfg st data, ?_,
    spoll_h_final wrOk rd cfg st arg hwrOk,
    dcl_h_final wrOk st (hwrOk _),
    trg_h_final wrOk st addrs hwrOk, ?_,
    sendToInstrument_final wrOk cfg st data hwrOk⟩
  · unfold sendStatus
    by_cases h : st.cstate = BusState.DTAS <;> simp [h, setControls, writeByteData]
  · intro hfail
    unfold dcl_h
    simp [sendCmd_fail wr _ _ hfail]

/-- C1 witness: concrete run with all handshakes completing (and the
timeout conjunct instantiated with an oracle that fails at once). -/
theorem bus_ops_idle_state_witness :
    (receiveData (fun _ => false) {} ⟨.CIDS, false, 0, 0⟩ false false 0 []).st.cstate =
      (if ({} : Cfg).cmode = 2 then BusState.CIDS else BusState.DIDS) ∧
    (sendData (fun _ => false) {} ⟨.CIDS, false, 0, 0⟩ [65]).1.cstate =
      (if ({} : Cfg).cmode = 2 then BusState.CIDS else BusState.DIDS) ∧
    (sendStatus (fun _ => false) {} ⟨.CIDS, false, 0, 0⟩).st.cstate = BusState.DIDS ∧
    (spoll_h (fun _ => true) (fun _ => some 0x41) {} ⟨.CIDS, false, 0, 0⟩
        (SpollArg.addrs [5])).1.cstate = BusState.CIDS ∧
    (dcl_h (fun _ => true) ⟨.CIDS, false, 0, 0⟩).1.cstate = BusState.CIDS ∧
    (trg_h (fun _ => true) ⟨.CIDS, false, 0, 0⟩ [5]).1.cstate = BusState.CIDS ∧
    ((fun _ => false : Nat → Bool) (⟨.CIDS, false, 0, 0⟩ : St).wn = false →
      (dcl_h (fun _ => false) ⟨.CIDS, false, 0, 0⟩).1.cstate = BusState.CCMS) ∧
    (sendToInstrument (fun _ => true) {} ⟨.CIDS, false, 0, 0⟩ [65] false).1.cstate =
      BusState.CCMS :=
  bus_ops_idle_state (fun _ => false) (fun _ => true) (fun _ => some 0x41)
    {} ⟨.CIDS, false, 0, 0⟩ [65] false false 0 [] (SpollArg.addrs [5]) [5]
    (fun _ => rfl)

/-! ## C2 - serial-poll sequence -/

/-- Erasing CCMS events from the optional ATN re-assertion leaves
nothing. -/
theorem filter_ccms_if (p : Prop) [Decidable p] :
    List.filter (fun e => !decide (e = Ev.ctrl BusState.CCMS))
      (if p then ([] : List Ev) else [Ev.ctrl BusState.CCMS]) = [] := by
  by_cases h : p <;> simp [h]

/-- Trace and output of the spoll loop when every command handshake
completes: each polled address contributes TAD+addr, CLAS and one
status-byte read (ATN re-assertions erased), and the outputs follow the
oracle. -/
theorem spollLoop_spec (wr : Nat → Bool) (rd : Nat → Option Nat) (cfg : Cfg)
    (all : Bool) (hwr : ∀ n, wr n = true) :
    ∀ (vals : List Nat) (st : St),
      (spollLoop wr rd cfg all st vals).2.1 = false ∧
      eraseCCMS (spollLoop wr rd cfg all st vals).2.2.1 =
        (spollPolled cfg.caddr rd all vals st.rn).flatMap
          (fun a => [Ev.cmd (GC_TAD + a), Ev.ctrl .CLAS, Ev.rdSB]) ∧
      (spollLoop wr rd cfg all st vals).2.2.2 =
        spollOuts cfg.caddr rd all vals st.rn := by
  intro vals
  induction vals with
  | nil => intro st; simp [spollLoop, spollPolled, spollOuts, eraseCCMS]
  | cons i rest ih =>
    intro st
    by_cases hca : i = cfg.caddr
    · simpa [spollLoop, spollPolled, spollOuts, hca] using ih st
    · rw [spollLoop]
      simp only [hca, if_false, sendCmd_ok wr _ _ (hwr _), setControls]
      cases hrd : rd st.rn with
      | none =>
        have h2 := ih { st with cstate := BusState.CLAS, wn := st.wn + 1, rn := st.rn + 1 }
        simp [hrd, spollPolled, spollOuts, hca, eraseCCMS, filter_ccms_if, h2.2.2] at h2 ⊢
        exact h2
      | some sb =>
        cases all with
        | false =>
          simp [hrd, spollPolled, spollOuts, hca, eraseCCMS, filter_ccms_if]
        | true =>
          by_cases hb : sb &&& 0x40 = 0
          · have h2 := ih { st with cstate := BusState.CLAS, wn := st.wn + 1, rn := st.rn + 1 }
            simp [hrd, hb, spollPolled, spollOuts, hca, eraseCCMS, filter_ccms_if, h2.2.2] at h2 ⊢
            exact h2
          · simp [hrd, hb, spollPolled, spollOuts, hca, eraseCCMS, filter_ccms_if]

/-- Every SRQ line reported by the poll loop carries a status byte with
bit 6 set that some read handshake returned. -/
theorem spollOuts_srq_mem (caddr : Nat) (rd : Nat → Option Nat) (all : Bool) :
    ∀ (vals : List Nat) (k i sb : Nat),
      Out.srqLine i sb ∈ spollOuts caddr rd all vals k →
      sb &&& 0x40 ≠ 0 ∧ ∃ m, rd m = some sb := by
  intro vals
  induction vals with
  | nil => intro k i sb h; simp [spollOuts] at h
  | cons a rest ih =>
    intro k i sb h
    rw [spollOuts] at h
    by_cases hca : a = caddr
    · simp only [hca, if_true] at h
      exact ih k i sb h
    · simp only [hca, if_false] at h
      cases hrd : rd k with
      | none =>
        simp only [hrd] at h
        exact ih (k + 1) i sb h
      | some sb2 =>
        simp only [hrd] at h
        cases all with
        | false =>
          simp at h
        | true =>
          rw [if_pos rfl] at h
          by_cases hb : sb2 &&& 0x40 = 0
          · rw [if_neg (not_not_intro hb)] at h
            exact ih (k + 1) i sb h
          · rw [if_pos hb] at h
            simp only [List.mem_singleton, Out.srqLine.injEq] at h
            exact ⟨h.2 ▸ hb, k, h.2 ▸ hrd⟩

/-- C2: with a valid parameter list (addresses 1..30, or `all`) and every
command handshake completing, the serial-poll handler issues, in order,
UNL, LAD+controller_address, SPE, then for each polled address TAD+addr
followed by entering CLAS and one status-byte read, then SPD, UNT, UNL,
and finally sets the state to CIDS (ATN re-assertions before command bytes
erased for comparison); the outputs follow the read oracle and, in
particular, every `SRQ:<index>,<byte>` line reported carries a returned
status byte with bit 6 set. -/
theorem spoll_h_claimed_sequence (wr : Nat → Bool) (rd : Nat → Option Nat)
    (cfg : Cfg) (st : St) (arg : SpollArg) (hwr : ∀ n, wr n = true)
    (hvalid : match arg with
      | SpollArg.all => True
      | SpollArg.addrs l => l ≠ [] ∧ l.length ≤ 15 ∧ ∀ a ∈ l, 1 ≤ a ∧ a ≤ 30) :
    eraseCCMS (spoll_h wr rd cfg st arg).2.1 =
      [Ev.cmd GC_UNL, Ev.cmd (GC_LAD + cfg.caddr), Ev.cmd GC_SPE] ++
      (spollPolled cfg.caddr rd (decide (arg = SpollArg.all))
          (spollVals cfg arg) st.rn).flatMap
        (fun a => [Ev.cmd (GC_TAD + a), Ev.ctrl .CLAS, Ev.rdSB]) ++
      [Ev.cmd GC_SPD, Ev.cmd GC_UNT, Ev.cmd GC_UNL, Ev.ctrl .CIDS] ∧
    (spoll_h wr rd cfg st arg).1.cstate = BusState.CIDS ∧
    (spoll_h wr rd cfg st arg).2.2 =
      spollOuts cfg.caddr rd (decide (arg = SpollArg.all))
          (spollVals cfg arg) st.rn ++
        (if arg = SpollArg.all then [Out.blank] else []) ∧
    (∀ i sb, Out.srqLine i sb ∈ (spoll_h wr rd cfg st arg).2.2 →
      sb &&& 0x40 ≠ 0 ∧ ∃ m, rd m = some sb) := by
  have hab := fun s =>
    (spollLoop_spec wr rd cfg (decide (arg = SpollArg.all)) hwr (spollVals cfg arg) s).1
  have htr := fun s =>
    (spollLoop_spec wr rd cfg (decide (arg = SpollArg.all)) hwr (spollVals cfg arg) s).2.1
  have houts := fun s =>
    (spollLoop_spec wr rd cfg (decide (arg = SpollArg.all)) hwr (spollVals cfg arg) s).2.2
  simp only [eraseCCMS, ne_eq, decide_not] at htr
  refine ⟨?_, ?_, ?_, ?_⟩
  · unfold spoll_h
    simp [sendCmd_ok, hwr, hab, htr, setControls, eraseCCMS, filter_ccms_if]
  · unfold spoll_h
    simp [sendCmd_ok, hwr, hab, setControls]
  · unfold spoll_h
    simp [sendCmd_ok, hwr, hab, houts, setControls]
  · intro i sb hmem
    unfold spoll_h at hmem
    simp [sendCmd_ok, hwr, hab, houts, setControls] at hmem
    exact spollOuts_srq_mem cfg.caddr rd _ _ _ i sb hmem

/-- C2 witness: poll of address 5 (controller address 0), every handshake
completing and the device answering status byte 0x41. -/
theorem spoll_h_claimed_sequence_witness :
    eraseCCMS (spoll_h (fun _ => true) (fun _ => some 0x41) {} ⟨.CIDS, false, 0, 0⟩
        (SpollArg.addrs [5])).2.1 =
      [Ev.cmd GC_UNL, Ev.cmd (GC_LAD + ({} : Cfg).caddr), Ev.cmd GC_SPE] ++
      (spollPolled ({} : Cfg).caddr (fun _ => some 0x41)
          (decide (SpollArg.addrs [5] = SpollArg.all))
          (spollVals {} (SpollArg.addrs [5])) (0 : Nat)).flatMap
        (fun a => [Ev.cmd (GC_TAD + a), Ev.ctrl .CLAS, Ev.rdSB]) ++
      [Ev.cmd GC_SPD, Ev.cmd GC_UNT, Ev.cmd GC_UNL, Ev.ctrl .CIDS] ∧
    (spoll_h (fun _ => true) (fun _ => some 0x41) {} ⟨.CIDS, false, 0, 0⟩
        (SpollArg.addrs [5])).1.cstate = BusState.CIDS ∧
    (spoll_h (fun _ => true) (fun _ => some 0x41) {} ⟨.CIDS, false, 0, 0⟩
        (SpollArg.addrs [5])).2.2 =
      spollOuts ({} : Cfg).caddr (fun _ => some 0x41)
          (decide (SpollArg.addrs [5] = SpollArg.all))
          (spollVals {} (SpollArg.addrs [5])) (0 : Nat) ++
        (if SpollArg.addrs [5] = SpollArg.all then [Out.blank] else []) ∧
    (∀ i sb,
      Out.srqLine i sb ∈ (spoll_h (fun _ => true) (fun _ => some 0x41) {}
          ⟨.CIDS, false, 0, 0⟩ (SpollArg.addrs [5])).2.2 →
      sb &&& 0x40 ≠ 0 ∧ ∃ m, (fun _ => some 0x41 : Nat → Option Nat) m = some sb) :=
  spoll_h_claimed_sequence (fun _ => true) (fun _ => some 0x41) {}
    ⟨.CIDS, false, 0, 0⟩ (SpollArg.addrs [5]) (fun _ => rfl) (by simp)

/-! ## C5 - receive terminator selection -/

/-- With EOI-based reading, the loop delivers everything up to and
including the first EOI-flagged byte, whatever the end-byte mode, end
byte and eor code. -/
theorem receiveLoop_eoi (detectEndByte : Bool) (endByte eor : Nat) :
    ∀ (l : List (Nat × Bool)) (b1 b2 : Nat),
      (receiveLoop true detectEndByte endByte eor (okStream l) b1 b2).1 =
        takeThroughEoi l := by
  intro l
  induction l with
  | nil => intro b1 b2; simp [receiveLoop, okStream, takeThroughEoi]
  | cons p rest ih =>
    intro b1 b2
    obtain ⟨b, e⟩ := p
    have ih2 := ih
    simp only [okStream] at ih2
    cases e <;> simp [receiveLoop, okStream, takeThroughEoi, ih2]

/-- The code's sliding-window terminator check agrees with "the received
bytes end with the configured sequence" for every eor code 0..6, where
`rev` lists the previously received bytes most recent first. -/
theorem isTerminatorDetected_termHit (eor : Nat) (heor : eor ≤ 6) :
    ∀ (b0 : Nat) (rev : List Nat),
      isTerminatorDetected b0 (rev.getD 0 0) (rev.getD 1 0) eor =
        termHit eor (b0 :: rev) := by
  intro b0 rev
  rcases rev with _ | ⟨a1, _ | ⟨a2, rest⟩⟩ <;>
    interval_cases eor <;>
      simp [isTerminatorDetected, termHit, eorSeqBytes, CR, LF, List.take,
        Bool.and_assoc]

/-- Without EOI-based reading and without end-byte mode, the loop delivers
bytes until the received data first ends with the configured eor
sequence. -/
theorem receiveLoop_eor (endByte eor : Nat) (heor : eor ≤ 6) :
    ∀ (l : List (Nat × Bool)) (rev : List Nat),
      (receiveLoop false false endByte eor (okStream l)
          (rev.getD 0 0) (rev.getD 1 0)).1 =
        takeUntilTermGo eor rev (l.map Prod.fst) := by
  intro l
  induction l with
  | nil => intro rev; simp [receiveLoop, okStream, takeUntilTermGo]
  | cons p rest ih =>
    intro rev
    obtain ⟨b, e⟩ := p
    have ih2 := ih (b :: rev)
    simp only [okStream, List.getD_cons_zero, List.getD_cons_succ] at ih2
    have hbr := isTerminatorDetected_termHit eor heor b rev
    simp only [List.getD, List.get?_eq_getElem?] at hbr ih2
    by_cases h : termHit eor (b :: rev) = true <;>
      simp [receiveLoop, okStream, takeUntilTermGo, List.getD, hbr, h, ih2]

/-- C5 amended: in controller mode, if `cfg.eoi` is set, EOI detection was
requested, or `eor` equals 7, the receive loop uses EOI as the sole
terminator (delivering exactly through the first EOI-flagged byte,
whatever the eor and end-byte settings); otherwise, provided end-byte
detection was not selected, the loop terminates exactly when the last 1-3
received bytes match the configured eor sequence (0=CR+LF, 1=CR, 2=LF,
3=none, 4=LF+CR, 5=ETX, 6=CR+LF+ETX). -/
theorem receiveData_terminator_selection (wr : Nat → Bool) (cfg : Cfg)
    (st : St) (detectEoi detectEndByte : Bool) (endByte : Nat)
    (l : List (Nat × Bool)) (hc2 : cfg.cmode = 2) :
    (cfg.eoi = true ∨ detectEoi = true ∨ cfg.eor = 7 →
      (receiveData wr cfg st detectEoi detectEndByte endByte
          (okStream l)).delivered = takeThroughEoi l) ∧
    (cfg.eoi = false → detectEoi = false → detectEndByte = false →
      cfg.eor ≤ 6 →
      (receiveData wr cfg st detectEoi detectEndByte endByte
          (okStream l)).delivered = takeUntilTerm cfg.eor (l.map Prod.fst)) := by
  constructor
  · intro hEoi
    have hrwe : (cfg.eoi || detectEoi || (cfg.eor == 7)) = true := by
      rcases hEoi with h | h | h <;> simp [h]
    unfold receiveData
    simp [hc2, hrwe, receiveLoop_eoi]
  · intro he hd hdb heor
    have hne : (cfg.eor == 7) = false := by
      simp only [beq_eq_false_iff_ne, ne_eq]
      omega
    have hand : cfg.eor &&& 7 = cfg.eor := by
      have h7 : (7 : Nat) = 2 ^ 3 - 1 := by norm_num
      rw [h7, Nat.and_pow_two_sub_one_eq_mod]
      exact Nat.mod_eq_of_lt (by omega)
    have hloop := receiveLoop_eor endByte cfg.eor heor l []
    simp at hloop
    unfold receiveData
    simp [hc2, he, hd, hdb, hne, hand, takeUntilTerm, hloop]

/-- C5 witness: controller read with EOI enabled, terminating on the
EOI-flagged second byte; and an eor=1 (CR) read stopping at the CR. -/
theorem receiveData_terminator_selection_witness :
    ((({} : Cfg).eoi = true ∨ (true : Bool) = true ∨ ({} : Cfg).eor = 7 →
      (receiveData (fun _ => true) {} ⟨.CIDS, false, 0, 0⟩ true false 0
          (okStream [(65, false), (66, true), (67, false)])).delivered =
        takeThroughEoi [(65, false), (66, true), (67, false)]) ∧
    (({} : Cfg).eoi = false → (true : Bool) = false → (false : Bool) = false →
      ({} : Cfg).eor ≤ 6 →
      (receiveData (fun _ => true) {} ⟨.CIDS, false, 0, 0⟩ true false 0
          (okStream [(65, false), (66, true), (67, false)])).delivered =
        takeUntilTerm ({} : Cfg).eor
          ([(65, false), (66, true), (67, false)].map Prod.fst))) ∧
    (65 : Nat) = 65 ∧
    ((({ eor := 1 } : Cfg).eoi = true ∨ (false : Bool) = true ∨
        ({ eor := 1 } : Cfg).eor = 7 →
      (receiveData (fun _ => true) { eor := 1 } ⟨.CIDS, false, 0, 0⟩ false false 0
          (okStream [(65, false), (CR, false), (67, false)])).delivered =
        takeThroughEoi [(65, false), (CR, false), (67, false)]) ∧
    (({ eor := 1 } : Cfg).eoi = false → (false : Bool) = false →
      (false : Bool) = false → ({ eor := 1 } : Cfg).eor ≤ 6 →
      (receiveData (fun _ => true) { eor := 1 } ⟨.CIDS, false, 0, 0⟩ false false 0
          (okStream [(65, false), (CR, false), (67, false)])).delivered =
        takeUntilTerm ({ eor := 1 } : Cfg).eor
          ([(65, false), (CR, false), (67, false)].map Prod.fst))) :=
  ⟨receiveData_terminator_selection (fun _ => true) {} ⟨.CIDS, false, 0, 0⟩
      true false 0 [(65, false), (66, true), (67, false)] rfl,
    rfl,
    receiveData_terminator_selection (fun _ => true) { eor := 1 }
      ⟨.CIDS, false, 0, 0⟩ false false 0 [(65, false), (CR, false), (67, false)] rfl⟩

/-- C5 counterexample: the claim's "otherwise" branch fails when end-byte
mode is selected or in device role.  With eor=0 (CR+LF) and the bytes CR,
LF, 66 arriving, the claimed eor termination would deliver [CR, LF], but
an end-byte read (endByte=65) delivers all three bytes, and so does a
device-role read (which always uses EOI as terminator). -/
theorem receiveData_eor_ignored_counterexample :
    takeUntilTerm 0 [CR, LF, 66] = [CR, LF] ∧
    (receiveData (fun _ => true) { eor := 0 } ⟨.CIDS, false, 0, 0⟩ false true 65
        (okStream [(CR, false), (LF, false), (66, false)])).delivered =
      [CR, LF, 66] ∧
    (receiveData (fun _ => true) { cmode := 1, eor := 0 } ⟨.DIDS, false, 0, 0⟩
        false false 0
        (okStream [(CR, false), (LF, false), (66, false)])).delivered =
      [CR, LF, 66] := by
  decide

/-! ## C6 - host line to wire bytes -/

/-- When every handshake completes, the send loop writes every payload
byte, none with EOI. -/
theorem sendDataLoop_ok (wr : Nat → Bool) (cfg : Cfg) (hwr : ∀ n, wr n = true) :
    ∀ (data : List Nat) (st : St),
      sendDataLoop wr cfg st data =
        ({ st with wn := st.wn + data.length }, false,
         data.map fun b => Ev.dat b false) := by
  intro data
  induction data with
  | nil => intro st; simp [sendDataLoop]
  | cons b rest ih =>
    intro st
    have hcond : b ≠ CR ∨ b ≠ LF ∨ b ≠ ESC := by
      rcases eq_or_ne b CR with h | h
      · subst h
        exact Or.inr (Or.inl (by decide))
      · exact Or.inl h
    rw [sendDataLoop]
    cases he : cfg.eoi <;>
      simp [he, hcond, writeByteData, hwr, NO_EOI, ih, Nat.add_assoc, Nat.add_comm,
        Nat.add_left_comm]

/-- Full event list of `sendData` when every handshake completes. -/
theorem sendData_evs (wr : Nat → Bool) (cfg : Cfg) (st : St) (data : List Nat)
    (hwr : ∀ n, wr n = true) :
    (sendData wr cfg st data).2 =
      [Ev.ctrl (if cfg.cmode = 2 then .CTAS else .DTAS)] ++
      (data.map fun b => Ev.dat b false) ++
      ((if cfg.eos &&& 0x2 = 0 then [Ev.dat CR false] else []) ++
       (if cfg.eos &&& 0x1 = 0 then [Ev.dat LF false] else [])) ++
      (if cfg.eoi then [Ev.eoiPulse] else []) ++
      [Ev.ctrl (if cfg.cmode = 2 then .CIDS else .DIDS)] := by
  unfold sendData
  simp only [sendDataLoop_ok wr cfg hwr]
  by_cases hm : cfg.cmode = 2 <;>
    by_cases h2 : cfg.eos &&& 0x2 = 0 <;>
      by_cases h1 : cfg.eos &&& 0x1 = 0 <;>
        simp only [Nat.and_one_is_mod] at h1 <;>
          simp [hm, h2, h1, setControls, writeByteData, hwr, NO_EOI]

/-- Event list of `unAddressDevice` when every handshake completes. -/
theorem unAddressDevice_evs (wr : Nat → Bool) (st : St) (hwr : ∀ n, wr n = true) :
    (unAddressDevice wr st).2.2 =
      (if st.cstate = .CCMS then [] else [Ev.ctrl .CCMS]) ++
        [Ev.cmd GC_UNL, Ev.cmd GC_UNT] := by
  unfold unAddressDevice
  by_cases hc : st.cstate = BusState.CCMS <;> simp [sendCmd_ok, hwr, hc]

/-- Event list of `addressDevice` when every handshake completes. -/
theorem addressDevice_evs (wr : Nat → Bool) (st : St) (addr : Nat) (talk : Bool)
    (hwr : ∀ n, wr n = true) :
    (addressDevice wr st addr talk).2.2 =
      (if st.cstate = .CCMS then [] else [Ev.ctrl .CCMS]) ++
        [Ev.cmd GC_UNL,
         Ev.cmd (if talk then GC_TAD + addr else GC_LAD + addr)] := by
  unfold addressDevice
  by_cases hc : st.cstate = BusState.CCMS <;> cases talk <;>
    simp [sendCmd_ok, hwr, hc]

/-- Full event list of the host-line send path (buffer not overflowed,
every handshake completing): optional addressing commands, the data and
terminator bytes (EOI pulse after them if enabled), then the unaddress
commands. -/
theorem sendToInstrument_evs (wr : Nat → Bool) (cfg : Cfg) (st : St)
    (X : List Nat) (hwr : ∀ n, wr n = true) :
    (sendToInstrument wr cfg st X false).2 =
      (if st.deviceAddressed = true then [] else
        (if st.cstate = .CCMS then [] else [Ev.ctrl .CCMS]) ++
          [Ev.cmd GC_UNL, Ev.cmd (GC_LAD + cfg.paddr)]) ++
      ([Ev.ctrl (if cfg.cmode = 2 then .CTAS else .DTAS)] ++
       (X.map fun b => Ev.dat b false) ++
       ((if cfg.eos &&& 0x2 = 0 then [Ev.dat CR false] else []) ++
        (if cfg.eos &&& 0x1 = 0 then [Ev.dat LF false] else [])) ++
       (if cfg.eoi then [Ev.eoiPulse] else []) ++
       [Ev.ctrl (if cfg.cmode = 2 then .CIDS else .DIDS)]) ++
      ([Ev.ctrl .CCMS] ++ [Ev.cmd GC_UNL, Ev.cmd GC_UNT]) := by
  unfold sendToInstrument
  by_cases hm : cfg.cmode = 2 <;> by_cases hda : st.deviceAddressed = true <;>
    simp [hm, hda, addressDevice_evs wr, unAddressDevice_evs wr, sendData_evs wr,
      sendData_final wr, hwr]

/-- Feeding a plain byte (not CR, LF or ESC) while the buffer has room just
appends it. -/
theorem parseInput_plain (s : PState) (b : Nat) (hEsc : s.isEsc = false)
    (hb1 : b ≠ CR) (hb2 : b ≠ LF) (hb3 : b ≠ ESC)
    (hlen : s.buf.length + 1 < PBSIZE) :
    parseInput s b = ({ s with buf := s.buf ++ [b], isEsc := false }, 0, []) := by
  obtain ⟨bufv, esc, pe, dbf, vb, si, idnv⟩ := s
  simp only at hEsc hlen
  subst hEsc
  unfold parseInput parseSwitch
  by_cases hp : b = PLUS <;>
    simp [hp, hb1, hb2, hb3, CR, LF, ESC, PLUS,
      show bufv.length < PBSIZE by omega,
      show ¬PBSIZE ≤ bufv.length + 1 by omega] <;>
    simp [CR, LF, ESC, PLUS] at hb1 hb2 hb3 <;>
    simp [hb1, hb2, hb3] <;>
    exact fun h => absurd hlen (Nat.not_lt.mpr h)

/-- A terminator on a nonempty, non-command, non-IDN buffer classifies the
line as instrument data (r = 2) and leaves the buffer content intact. -/
theorem parseInput_cr_data (s : PState) (hEsc : s.isEsc = false)
    (hne : s.buf ≠ []) (hcmd : isCmdBuf s.buf = false) (hidn : s.idn = 0)
    (hlen : s.buf.length < PBSIZE) :
    parseInput s CR = ({ s with isPlusEscaped := false }, 2, []) := by
  obtain ⟨bufv, esc, pe, dbf, vb, si, idnv⟩ := s
  simp only at hEsc hne hcmd hidn hlen
  subst hEsc hidn
  unfold parseInput parseSwitch
  have hlp : bufv.length ≠ 0 := by
    intro h
    exact hne (List.length_eq_zero.mp h)
  simp [hcmd, hlp, show bufv.length < PBSIZE from hlen,
    show ¬PBSIZE ≤ bufv.length by omega, Nat.pos_of_ne_zero hlp]

/-- Feeding a plain line followed by CR accumulates the bytes and
classifies the line as instrument data. -/
theorem feedBytes_plain_line :
    ∀ (X : List Nat) (s : PState), s.isEsc = false →
      (∀ b ∈ X, b ≠ CR ∧ b ≠ LF ∧ b ≠ ESC) →
      s.buf.length + X.length < PBSIZE →
      s.idn = 0 →
      isCmdBuf (s.buf ++ X) = false →
      s.buf ++ X ≠ [] →
      feedBytes s (X ++ [CR]) =
        ({ s with buf := s.buf ++ X, isPlusEscaped := false }, 2, []) := by
  intro X
  induction X with
  | nil =>
    intro s h1 h2 h3 h4 h5 h6
    simp only [List.append_nil] at h5 h6
    rw [List.nil_append, feedBytes]
    rw [parseInput_cr_data s h1 h6 h5 h4 (by omega)]
    simp
  | cons b rest ih =>
    intro s h1 h2 h3 h4 h5 h6
    have hb := h2 b (by simp)
    rw [List.cons_append, feedBytes]
    rw [parseInput_plain s b h1 hb.1 hb.2.1 hb.2.2 (by simp at h3; omega)]
    have hih := ih { s with buf := s.buf ++ [b], isEsc := false } rfl
      (fun x hx => h2 x (by simp [hx]))
      (by simp at h3 ⊢; omega) h4
      (by simpa [List.append_assoc] using h5)
      (by simp)
    simp only [List.append_assoc, List.singleton_append] at hih
    simp [hih, h1]

/-- Terminator wire bytes produced by `sendData` agree with the eos
table. -/
theorem eos_wire_bytes (eos : Nat) (heos : eos ≤ 3) :
    dataBytesOf ((if eos &&& 0x2 = 0 then [Ev.dat CR false] else []) ++
      (if eos &&& 0x1 = 0 then [Ev.dat LF false] else [])) = eosBytes eos := by
  interval_cases eos <;> decide

/-- Wire bytes of a mapped data list are the list itself. -/
theorem dataBytesOf_map_dat (X : List Nat) :
    dataBytesOf (X.map fun b => Ev.dat b false) = X := by
  induction X with
  | nil => rfl
  | cons a t ih =>
    simp only [dataBytesOf, List.map_cons, List.filterMap_cons] at ih ⊢
    simp [ih]

/-- Composed form of the previous lemma, as produced by
`List.filterMap_map`. -/
theorem filterMap_dat_comp (X : List Nat) :
    List.filterMap
      ((fun e => match e with | Ev.dat b _ => some b | _ => none) ∘
        fun b => Ev.dat b false) X = X := by
  induction X with
  | nil => rfl
  | cons a t ih => simp_all [List.filterMap_cons, Function.comp]

/-- C6 counterexample: with `eoi_on_send` enabled, the final byte written
is handshaked without EOI; EOI is pulsed separately afterwards (the claim
asserts EOI is asserted together with the final byte). -/
theorem sendData_eoi_pulse_counterexample :
    (sendData (fun _ => true) { eoi := true, eos := 3 } ⟨.CIDS, false, 0, 0⟩
        [65]).2 =
      [Ev.ctrl .CTAS, Ev.dat 65 false, Ev.eoiPulse, Ev.ctrl .CIDS] ∧
    (∀ e ∈ (sendData (fun _ => true) { eoi := true, eos := 3 } ⟨.CIDS, false, 0, 0⟩
        [65]).2, e ≠ Ev.dat 65 true) := by
  decide

/-- C6 amended: a host line X terminated by CR (X nonempty, fitting the
parse buffer, free of CR/LF/ESC, not a `++` command, with IDN replies
disabled) is classified as instrument data with the buffer holding exactly
X, and the data bytes handshaked onto the GPIB bus are exactly X followed
by the eos terminator bytes; when `eoi_on_send` is enabled, no data byte
carries EOI - instead a separate EOI pulse follows the final data byte. -/
theorem host_line_to_wire (wr : Nat → Bool) (cfg : Cfg) (st : St)
    (X : List Nat) (v : Bool) (hwr : ∀ n, wr n = true) (hne : X ≠ [])
    (hlen : X.length ≤ 255)
    (hplain : ∀ b ∈ X, b ≠ CR ∧ b ≠ LF ∧ b ≠ ESC)
    (hcmd : isCmdBuf X = false) (hidn : cfg.idn = 0) (heos : cfg.eos ≤ 3) :
    (feedBytes ⟨[], false, false, false, v, false, cfg.idn⟩ (X ++ [CR])).2.1 = 2 ∧
    (feedBytes ⟨[], false, false, false, v, false, cfg.idn⟩ (X ++ [CR])).1.buf = X ∧
    (feedBytes ⟨[], false, false, false, v, false, cfg.idn⟩
        (X ++ [CR])).1.dataBufferFull = false ∧
    dataBytesOf (sendToInstrument wr cfg st X false).2 = X ++ eosBytes cfg.eos ∧
    (cfg.eoi = true →
      (∀ b e, Ev.dat b e ∈ (sendToInstrument wr cfg st X false).2 → e = false) ∧
      ∃ l1 l2, (sendToInstrument wr cfg st X false).2 = l1 ++ Ev.eoiPulse :: l2 ∧
        dataBytesOf l1 = X ++ eosBytes cfg.eos ∧ dataBytesOf l2 = []) := by
  have hfeed := feedBytes_plain_line X ⟨[], false, false, false, v, false, cfg.idn⟩
    rfl hplain (by simp [PBSIZE]; omega) (by simpa using hidn)
    (by simpa using hcmd) (by simpa using hne)
  simp only [List.nil_append] at hfeed
  have hdata : dataBytesOf (sendToInstrument wr cfg st X false).2 =
      X ++ eosBytes cfg.eos := by
    rw [sendToInstrument_evs wr cfg st X hwr]
    rw [← eos_wire_bytes cfg.eos heos]
    by_cases hda : st.deviceAddressed = true <;>
      by_cases hcc : st.cstate = BusState.CCMS <;>
        by_cases h2 : cfg.eos &&& 0x2 = 0 <;>
          by_cases h1 : cfg.eos &&& 0x1 = 0 <;>
            cases he : cfg.eoi <;>
              simp [hda, hcc, h2, h1, he, dataBytesOf, List.filterMap_append,
                List.filterMap_map, dataBytesOf_map_dat, filterMap_dat_comp]
  refine ⟨by simp [hfeed], by simp [hfeed], by simp [hfeed], hdata, ?_⟩
  intro he
  constructor
  · intro b e hmem
    rw [sendToInstrument_evs wr cfg st X hwr] at hmem
    by_cases hda : st.deviceAddressed = true <;>
      by_cases hcc : st.cstate = BusState.CCMS <;>
        by_cases h2 : cfg.eos &&& 0x2 = 0 <;>
          by_cases h1 : cfg.eos &&& 0x1 = 0 <;>
            simp [hda, hcc, h2, h1, he] at hmem <;>
              aesop
  · refine ⟨(if st.deviceAddressed = true then [] else
        (if st.cstate = .CCMS then [] else [Ev.ctrl .CCMS]) ++
          [Ev.cmd GC_UNL, Ev.cmd (GC_LAD + cfg.paddr)]) ++
      ([Ev.ctrl (if cfg.cmode = 2 then .CTAS else .DTAS)] ++
       (X.map fun b => Ev.dat b false) ++
       ((if cfg.eos &&& 0x2 = 0 then [Ev.dat CR false] else []) ++
        (if cfg.eos &&& 0x1 = 0 then [Ev.dat LF false] else []))),
      [Ev.ctrl (if cfg.cmode = 2 then .CIDS else .DIDS)] ++
        ([Ev.ctrl .CCMS] ++ [Ev.cmd GC_UNL, Ev.cmd GC_UNT]), ?_, ?_, ?_⟩
    · rw [sendToInstrument_evs wr cfg st X hwr]
      simp [he, List.append_assoc]
    · rw [← eos_wire_bytes cfg.eos heos]
      by_cases hda : st.deviceAddressed = true <;>
        by_cases hcc : st.cstate = BusState.CCMS <;>
          simp [hda, hcc, dataBytesOf, List.filterMap_append, List.filterMap_map,
            dataBytesOf_map_dat, filterMap_dat_comp]
    · simp [dataBytesOf]

/-- C6 witness: the two-byte line "AB" with EOI enabled and eos = CR+LF. -/
theorem host_line_to_wire_witness :
    (feedBytes ⟨[], false, false, false, false, false, ({ eoi := true } : Cfg).idn⟩
        ([65, 66] ++ [CR])).2.1 = 2 ∧
    (feedBytes ⟨[], false, false, false, false, false, ({ eoi := true } : Cfg).idn⟩
        ([65, 66] ++ [CR])).1.buf = [65, 66] ∧
    (feedBytes ⟨[], false, false, false, false, false, ({ eoi := true } : Cfg).idn⟩
        ([65, 66] ++ [CR])).1.dataBufferFull = false ∧
    dataBytesOf (sendToInstrument (fun _ => true) { eoi := true }
        ⟨.CIDS, false, 0, 0⟩ [65, 66] false).2 =
      [65, 66] ++ eosBytes ({ eoi := true } : Cfg).eos ∧
    (({ eoi := true } : Cfg).eoi = true →
      (∀ b e, Ev.dat b e ∈ (sendToInstrument (fun _ => true) { eoi := true }
          ⟨.CIDS, false, 0, 0⟩ [65, 66] false).2 → e = false) ∧
      ∃ l1 l2, (sendToInstrument (fun _ => true) { eoi := true }
          ⟨.CIDS, false, 0, 0⟩ [65, 66] false).2 = l1 ++ Ev.eoiPulse :: l2 ∧
        dataBytesOf l1 = [65, 66] ++ eosBytes ({ eoi := true } : Cfg).eos ∧
        dataBytesOf l2 = []) :=
  host_line_to_wire (fun _ => true) { eoi := true } ⟨.CIDS, false, 0, 0⟩
    [65, 66] false (fun _ => rfl) (by decide) (by decide) (by decide)
    (by decide) rfl (by decide)

/-! ## C8 - parse-buffer overflow -/

/-- C8 amended: when a plain byte fills the parse buffer before any
terminator, a buffer that is not a `++` command is delivered as instrument
data (status 2, content intact, `dataBufferFull` raised, no message),
while a `++` command buffer is discarded with the overflow error message
emitted only when verbose mode is on. -/
theorem parseInput_overflow (s : PState) (c : Nat) (hEsc : s.isEsc = false)
    (hlen : s.buf.length = PBSIZE - 1) (hc1 : c ≠ CR) (hc2 : c ≠ LF)
    (hc3 : c ≠ ESC) :
    (isCmdBuf (s.buf ++ [c]) = false →
      (parseInput s c).2.1 = 2 ∧ (parseInput s c).1.dataBufferFull = true ∧
      (parseInput s c).1.buf = s.buf ++ [c] ∧ (parseInput s c).2.2 = []) ∧
    (isCmdBuf (s.buf ++ [c]) = true →
      (parseInput s c).1.buf = [] ∧ (parseInput s c).2.1 = 0 ∧
      (parseInput s c).2.2 = (if s.isVerbose then [Out.overflowError] else [])) := by
  obtain ⟨bufv, esc, pe, dbf, vb, si, idnv⟩ := s
  simp only at hEsc hlen
  subst hEsc
  have h255 : bufv.length = 255 := by simpa [PBSIZE] using hlen
  unfold parseInput parseSwitch
  constructor <;> intro hcmd <;> simp only at hcmd <;>
    by_cases hp : c = PLUS
  all_goals try (
    subst hp
    simp [show ¬(PLUS = CR ∨ PLUS = LF) by decide, show PLUS ≠ ESC by decide,
      PBSIZE, h255, hcmd])
  all_goals
    simp [hp, hc1, hc2, hc3, PBSIZE, h255, hcmd]

set_option maxRecDepth 8192 in
/-- C8 counterexample: 256 `+` bytes fill the buffer with a command and no
terminator; in the default non-verbose mode the buffer is discarded with
NO error output (the claim asserts an error message is emitted). -/
theorem command_overflow_silent_counterexample :
    (feedBytes ⟨[], false, false, false, false, false, 0⟩
        (List.replicate 256 PLUS)).2.2 = [] ∧
    (feedBytes ⟨[], false, false, false, false, false, 0⟩
        (List.replicate 256 PLUS)).1.buf = [] ∧
    (feedBytes ⟨[], false, false, false, false, false, 0⟩
        (List.replicate 256 PLUS)).2.1 = 0 := by
  decide

set_option maxRecDepth 8192 in
/-- C8 witness: overflow on a plain data buffer (255 times 65 then 66). -/
theorem parseInput_overflow_witness :
    ((isCmdBuf (List.replicate 255 65 ++ [66]) = false →
      (parseInput ⟨List.replicate 255 65, false, false, false, false, false, 0⟩ 66).2.1 = 2 ∧
      (parseInput ⟨List.replicate 255 65, false, false, false, false, false, 0⟩
          66).1.dataBufferFull = true ∧
      (parseInput ⟨List.replicate 255 65, false, false, false, false, false, 0⟩ 66).1.buf =
        List.replicate 255 65 ++ [66] ∧
      (parseInput ⟨List.replicate 255 65, false, false, false, false, false, 0⟩ 66).2.2 = []) ∧
    (isCmdBuf (List.replicate 255 65 ++ [66]) = true →
      (parseInput ⟨List.replicate 255 65, false, false, false, false, false, 0⟩ 66).1.buf = [] ∧
      (parseInput ⟨List.replicate 255 65, false, false, false, false, false, 0⟩ 66).2.1 = 0 ∧
      (parseInput ⟨List.replicate 255 65, false, false, false, false, false, 0⟩ 66).2.2 =
        (if (⟨List.replicate 255 65, false, false, false, false, false, 0⟩ : PState).isVerbose
          then [Out.overflowError] else []))) ∧
    isCmdBuf (List.replicate 255 65 ++ [66]) = false :=
  ⟨parseInput_overflow ⟨List.replicate 255 65, false, false, false, false, false, 0⟩
      66 rfl (by simp [PBSIZE]) (by decide) (by decide) (by decide),
    by decide⟩
